import Mathlib

set_option linter.dupNamespace false

/-!
Verification of the disgobed embed builder (`embed.go`).

The Go code is shallowly embedded: the builder's mutation-by-pointer is
modelled by explicit state passing, so a Go method `func (e *Embed) M(...)
*Embed` that mutates `e` in place and returns the same pointer becomes a
Lean function `Embed → ... → Embed` whose result is the updated state.
Errors produced by `fmt.Errorf` templates are modelled as structured
values of an inductive type `Err`, one constructor per template.
The wrapped `disgord` schema types are external to the repository and are
modelled structurally.
-/

namespace Disgobed

/-- The error values the builders accumulate, one constructor per
`fmt.Errorf` template used by the code (the template strings live in the
repository's validation file, which is not part of the provided source;
their argument lists are taken from the call sites in `embed.go`). -/
inductive Err where
  | limitExceeded (kind : String) (limit : Nat) (actual : Nat) (value : String)
  | limitExceededLong (kind : String) (limit : Nat) (actual : Nat)
  | valueOutOfRange (kind : String) (value : Int) (lo : Int) (hi : Int)
  | collectionLimitReached (name : String) (limit : Nat)
  | invalidEnumValue (value : String)
  deriving DecidableEq, Repr

namespace Disgord

/-- External schema fragment `disgord.EmbedField`. -/
structure EmbedField where
  Name : String
  Value : String
  Inline : Bool
  deriving DecidableEq, Repr

/-- External schema fragment `disgord.EmbedFooter`. -/
structure EmbedFooter where
  Text : String
  IconURL : String
  deriving DecidableEq, Repr

/-- External schema fragment `disgord.EmbedAuthor`. -/
structure EmbedAuthor where
  Name : String
  URL : String
  IconURL : String
  deriving DecidableEq, Repr

/-- External schema fragment `disgord.EmbedThumbnail`. -/
structure EmbedThumbnail where
  URL : String
  deriving DecidableEq, Repr

/-- External schema fragment `disgord.EmbedVideo`. -/
structure EmbedVideo where
  URL : String
  deriving DecidableEq, Repr

/-- External schema fragment `disgord.EmbedImage`. -/
structure EmbedImage where
  URL : String
  deriving DecidableEq, Repr

/-- External schema fragment `disgord.EmbedProvider`. -/
structure EmbedProvider where
  Name : String
  URL : String
  deriving DecidableEq, Repr

/-- External schema root `disgord.Embed`. Timestamps are abstracted to an
integer instant; pointer-valued nested fragments become `Option`. The Go
zero value of each field is the corresponding `default`. -/
structure Embed where
  Title : String := ""
  «Type» : String := ""
  Description : String := ""
  URL : String := ""
  Timestamp : Int := 0
  Color : Int := 0
  Footer : Option EmbedFooter := none
  Image : Option EmbedImage := none
  Thumbnail : Option EmbedThumbnail := none
  Video : Option EmbedVideo := none
  Provider : Option EmbedProvider := none
  Author : Option EmbedAuthor := none
  Fields : List EmbedField := []
  deriving DecidableEq, Repr

end Disgord

/-- Go's `len` on a string counts its UTF-8 bytes. -/
def goLen (s : String) : Nat := s.utf8ByteSize

/-- Modelled from the spec: the character limit for short text fields such
as the embed title, `lowerCharLimit` (256). The constant is declared in the
repository's validation file, which is not part of the provided source. -/
def lowerCharLimit : Nat := 256

/-- Modelled from the spec: the character limit for long text fields such
as the embed description, `upperCharLimit` (2048). The constant is declared
in the repository's validation file, which is not part of the provided
source. -/
def upperCharLimit : Nat := 2048

/-- Modelled from the spec: the exclusive upper bound on embed colors,
`maxColorValue` (16777216). The constant is declared in the repository's
validation file, which is not part of the provided source. -/
def maxColorValue : Int := 16777216

/-- Modelled from the spec: the maximum number of fields on one embed,
`maxFieldCount` (25). The constant is declared in the repository's
validation file, which is not part of the provided source. -/
def maxFieldCount : Nat := 25

/-- Modelled from the spec: the platform's fixed enumeration of valid
embed types (the spec names `"rich"` as a member and `"bogus"` as a
non-member); the list is declared in the repository's validation file,
which is not part of the provided source. -/
def validEmbedTypes : List String :=
  ["rich", "image", "video", "gifv", "article", "link"]

/-- Modelled from the spec: `checkTypeValid` decides membership in the
platform's fixed enumeration of valid embed types. Declared in the
repository's validation file, which is not part of the provided source. -/
def checkTypeValid (embedType : String) : Bool :=
  validEmbedTypes.contains embedType

/-- The builder type `Embed` from `embed.go`: wraps a `disgord.Embed`
(field `Embed`, mirroring Go struct embedding) together with the lazily
allocated error list `Errors *[]error` (a nil pointer becomes `none`). -/
structure Embed where
  Embed : Disgord.Embed
  Errors : Option (List Err)
  deriving DecidableEq, Repr

/-- The error list as a plain list (`nil` pointer reads as empty). -/
def errsOf (o : Option (List Err)) : List Err := o.getD []

/-- `Finalize` returns the wrapped raw embed and the current error list,
then (via `defer`) sets `Errors` to nil. The deferred clear runs after the
return values are taken, so the returned list is the pre-clear one. -/
def Embed.Finalize (e : Disgobed.Embed) :
    (Disgord.Embed × Option (List Err)) × Disgobed.Embed :=
  ((e.Embed, e.Errors), { e with Errors := none })

/-- `addError` formats an error and appends it to the stored slice,
allocating the slice first when the pointer is nil. The formatting of the
template is abstracted: the caller passes the structured `Err` value. -/
def Embed.addError (e : Disgobed.Embed) (err : Err) : Disgobed.Embed :=
  match e.Errors with
  | none => { e with Errors := some [err] }
  | some l => { e with Errors := some (l ++ [err]) }

/-- `addRawError` appends a pre-existing error to the stored slice,
allocating the slice first when the pointer is nil. -/
def Embed.addRawError (e : Disgobed.Embed) (err : Err) : Disgobed.Embed :=
  match e.Errors with
  | none => { e with Errors := some [err] }
  | some l => { e with Errors := some (l ++ [err]) }

/-- `addAllRawErrors` appends every error of a pre-existing slice, in
order; a nil slice pointer is a no-op. -/
def Embed.addAllRawErrors (e : Disgobed.Embed) (errs : Option (List Err)) : Disgobed.Embed :=
  match errs with
  | none => e
  | some l => l.foldl Embed.addRawError e

/-- `NewEmbed` creates the empty builder: zero-valued raw embed, nil
error list. -/
def NewEmbed : Disgobed.Embed :=
  { Embed := {}, Errors := none }

/-- `SetTitle`: sets the title when `len(title) <= lowerCharLimit`, else
records a limit-exceeded error (`embed title`, limit, length, value). -/
def Embed.SetTitle (e : Disgobed.Embed) (title : String) : Disgobed.Embed :=
  if goLen title ≤ lowerCharLimit then
    { e with Embed := { e.Embed with Title := title } }
  else
    e.addError (.limitExceeded "embed title" lowerCharLimit (goLen title) title)

/-- `SetDescription`: sets the description when
`len(desc) <= upperCharLimit`, else records the long-form limit error. -/
def Embed.SetDescription (e : Disgobed.Embed) (desc : String) : Disgobed.Embed :=
  if goLen desc ≤ upperCharLimit then
    { e with Embed := { e.Embed with Description := desc } }
  else
    e.addError (.limitExceededLong "embed description" upperCharLimit (goLen desc))

/-- `SetURL`: unconditional set. -/
def Embed.SetURL (e : Disgobed.Embed) (url : String) : Disgobed.Embed :=
  { e with Embed := { e.Embed with URL := url } }

/-- `SetColor`: sets the color when `0 <= color < maxColorValue`, else
records a value-out-of-range error. -/
def Embed.SetColor (e : Disgobed.Embed) (color : Int) : Disgobed.Embed :=
  if color ≥ 0 ∧ color < maxColorValue then
    { e with Embed := { e.Embed with Color := color } }
  else
    e.addError (.valueOutOfRange "embed color" color 0 maxColorValue)

/-- `setRawTimestamp`: unconditional set of the timestamp. -/
def Embed.setRawTimestamp (e : Disgobed.Embed) (timestamp : Int) : Disgobed.Embed :=
  { e with Embed := { e.Embed with Timestamp := timestamp } }

/-- `SetCustomTimestamp`: converts the given instant to UTC (identity on
the abstract instant) and sets it. -/
def Embed.SetCustomTimestamp (e : Disgobed.Embed) (t : Int) : Disgobed.Embed :=
  e.setRawTimestamp t

/-- `InlineAllFields`: sets `Inline` to true on every attached field (the
Go loop mutates the fields through their pointers). -/
def Embed.InlineAllFields (e : Disgobed.Embed) : Disgobed.Embed :=
  { e with Embed := { e.Embed with
      Fields := e.Embed.Fields.map fun f => { f with Inline := true } } }

/-- `OutlineAllFields`: sets `Inline` to false on every attached field. -/
def Embed.OutlineAllFields (e : Disgobed.Embed) : Disgobed.Embed :=
  { e with Embed := { e.Embed with
      Fields := e.Embed.Fields.map fun f => { f with Inline := false } } }

/-- `AddRawField`: appends the raw field when fewer than `maxFieldCount`
fields are attached, else records a limit-reached error naming the
rejected field. -/
def Embed.AddRawField (e : Disgobed.Embed) (field : Disgord.EmbedField) : Disgobed.Embed :=
  if e.Embed.Fields.length < maxFieldCount then
    { e with Embed := { e.Embed with Fields := e.Embed.Fields ++ [field] } }
  else
    e.addError (.collectionLimitReached field.Name maxFieldCount)

/-- `AddRawFields`: adds each raw field in order via `AddRawField`. -/
def Embed.AddRawFields (e : Disgobed.Embed) (fields : List Disgord.EmbedField) : Disgobed.Embed :=
  fields.foldl Embed.AddRawField e

/-- Modelled from the spec: the `Field` sub-builder (declared in the
repository's field file, not part of the provided source): it wraps one
raw `disgord.EmbedField` plus an optional error list. -/
structure Field where
  EmbedField : Disgord.EmbedField
  Errors : Option (List Err)
  deriving DecidableEq, Repr

/-- Modelled from the spec: `Field.Finalize` returns the raw fragment and
the accumulated errors, then clears the builder's error list. -/
def Field.Finalize (f : Disgobed.Field) :
    (Disgord.EmbedField × Option (List Err)) × Disgobed.Field :=
  ((f.EmbedField, f.Errors), { f with Errors := none })

/-- `AddField`: finalizes the field builder, absorbs its errors, then
adds the raw result via `AddRawField`. -/
def Embed.AddField (e : Disgobed.Embed) (field : Field) : Disgobed.Embed :=
  let res := field.Finalize.1.1
  let errs := field.Finalize.1.2
  (e.addAllRawErrors errs).AddRawField res

/-- `AddFields`: adds each field builder in order via `AddField`. -/
def Embed.AddFields (e : Disgobed.Embed) (fields : List Field) : Disgobed.Embed :=
  fields.foldl Embed.AddField e

/-- Modelled from the spec: the `Footer` sub-builder (declared in the
repository's footer file, not part of the provided source): it wraps one
raw `disgord.EmbedFooter` plus an optional error list. -/
structure Footer where
  EmbedFooter : Disgord.EmbedFooter
  Errors : Option (List Err)
  deriving DecidableEq, Repr

/-- Modelled from the spec: `Footer.Finalize` returns the raw fragment
and the accumulated errors, then clears the builder's error list. -/
def Footer.Finalize (f : Disgobed.Footer) :
    (Disgord.EmbedFooter × Option (List Err)) × Disgobed.Footer :=
  ((f.EmbedFooter, f.Errors), { f with Errors := none })

/-- `SetRawFooter`: unconditional set of the footer fragment. -/
def Embed.SetRawFooter (e : Disgobed.Embed) (footer : Disgord.EmbedFooter) : Disgobed.Embed :=
  { e with Embed := { e.Embed with Footer := some footer } }

/-- `SetFooter`: finalizes the footer builder, absorbs its errors, then
sets the raw result via `SetRawFooter`. -/
def Embed.SetFooter (e : Disgobed.Embed) (footer : Footer) : Disgobed.Embed :=
  let res := footer.Finalize.1.1
  let errs := footer.Finalize.1.2
  (e.addAllRawErrors errs).SetRawFooter res

/-- `SetType`: sets the embed type when `checkTypeValid` accepts it, else
records an invalid-type error carrying the rejected value. -/
def Embed.SetType (e : Disgobed.Embed) (embedType : String) : Disgobed.Embed :=
  if checkTypeValid embedType then
    { e with Embed := { e.Embed with «Type» := embedType } }
  else
    e.addError (.invalidEnumValue embedType)

/-- `SetCurrentTimestamp`: sets the timestamp to the current instant
converted to UTC; the ambient clock read by `time.Now` becomes the
explicit argument `now` in the pure embedding. -/
def Embed.SetCurrentTimestamp (e : Disgobed.Embed) (now : Int) : Disgobed.Embed :=
  e.setRawTimestamp now

/-- Modelled from the spec: the `Author` sub-builder (declared in the
repository's author file, not part of the provided source): it wraps one
raw `disgord.EmbedAuthor` plus an optional error list. -/
structure Author where
  EmbedAuthor : Disgord.EmbedAuthor
  Errors : Option (List Err)
  deriving DecidableEq, Repr

/-- Modelled from the spec: `Author.Finalize` returns the raw fragment
and the accumulated errors, then clears the builder's error list. -/
def Author.Finalize (a : Disgobed.Author) :
    (Disgord.EmbedAuthor × Option (List Err)) × Disgobed.Author :=
  ((a.EmbedAuthor, a.Errors), { a with Errors := none })

/-- `SetRawAuthor`: unconditional set of the author fragment. -/
def Embed.SetRawAuthor (e : Disgobed.Embed) (author : Disgord.EmbedAuthor) :
    Disgobed.Embed :=
  { e with Embed := { e.Embed with Author := some author } }

/-- `SetAuthor`: finalizes the author builder, absorbs its errors, then
sets the raw result via `SetRawAuthor`. -/
def Embed.SetAuthor (e : Disgobed.Embed) (author : Disgobed.Author) :
    Disgobed.Embed :=
  let res := author.Finalize.1.1
  let errs := author.Finalize.1.2
  (e.addAllRawErrors errs).SetRawAuthor res

/-- Modelled from the spec: the `Thumbnail` sub-builder (declared in the
repository's thumbnail file, not part of the provided source). -/
structure Thumbnail where
  EmbedThumbnail : Disgord.EmbedThumbnail
  Errors : Option (List Err)
  deriving DecidableEq, Repr

/-- Modelled from the spec: `Thumbnail.Finalize` returns the raw fragment
and the accumulated errors, then clears the builder's error list. -/
def Thumbnail.Finalize (t : Disgobed.Thumbnail) :
    (Disgord.EmbedThumbnail × Option (List Err)) × Disgobed.Thumbnail :=
  ((t.EmbedThumbnail, t.Errors), { t with Errors := none })

/-- `SetRawThumbnail`: unconditional set of the thumbnail fragment. -/
def Embed.SetRawThumbnail (e : Disgobed.Embed)
    (thumb : Disgord.EmbedThumbnail) : Disgobed.Embed :=
  { e with Embed := { e.Embed with Thumbnail := some thumb } }

/-- `SetThumbnail`: finalizes the thumbnail builder, absorbs its errors,
then sets the raw result via `SetRawThumbnail`. -/
def Embed.SetThumbnail (e : Disgobed.Embed) (thumb : Disgobed.Thumbnail) :
    Disgobed.Embed :=
  let res := thumb.Finalize.1.1
  let errs := thumb.Finalize.1.2
  (e.addAllRawErrors errs).SetRawThumbnail res

/-- Modelled from the spec: the `Provider` sub-builder (declared in the
repository's provider file, not part of the provided source). -/
structure Provider where
  EmbedProvider : Disgord.EmbedProvider
  Errors : Option (List Err)
  deriving DecidableEq, Repr

/-- Modelled from the spec: `Provider.Finalize` returns the raw fragment
and the accumulated errors, then clears the builder's error list. -/
def Provider.Finalize (p : Disgobed.Provider) :
    (Disgord.EmbedProvider × Option (List Err)) × Disgobed.Provider :=
  ((p.EmbedProvider, p.Errors), { p with Errors := none })

/-- `SetRawProvider`: unconditional set of the provider fragment. -/
def Embed.SetRawProvider (e : Disgobed.Embed)
    (provider : Disgord.EmbedProvider) : Disgobed.Embed :=
  { e with Embed := { e.Embed with Provider := some provider } }

/-- `SetProvider`: finalizes the provider builder, then — inside a
nil-guard the source marks as dead (`// This should never run`) —
absorbs its errors, then sets the raw result via `SetRawProvider`. -/
def Embed.SetProvider (e : Disgobed.Embed) (provider : Disgobed.Provider) :
    Disgobed.Embed :=
  let res := provider.Finalize.1.1
  let errs := provider.Finalize.1.2
  (if errs.isSome then e.addAllRawErrors errs else e).SetRawProvider res

/-- Modelled from the spec: the `Video` sub-builder (declared in the
repository's video file, not part of the provided source). -/
structure Video where
  EmbedVideo : Disgord.EmbedVideo
  Errors : Option (List Err)
  deriving DecidableEq, Repr

/-- Modelled from the spec: `Video.Finalize` returns the raw fragment and
the accumulated errors, then clears the builder's error list. -/
def Video.Finalize (v : Disgobed.Video) :
    (Disgord.EmbedVideo × Option (List Err)) × Disgobed.Video :=
  ((v.EmbedVideo, v.Errors), { v with Errors := none })

/-- `SetRawVideo`: unconditional set of the video fragment. -/
def Embed.SetRawVideo (e : Disgobed.Embed) (vid : Disgord.EmbedVideo) :
    Disgobed.Embed :=
  { e with Embed := { e.Embed with Video := some vid } }

/-- `SetVideo`: finalizes the video builder, absorbs its errors, then
sets the raw result via `SetRawVideo`. -/
def Embed.SetVideo (e : Disgobed.Embed) (vid : Disgobed.Video) :
    Disgobed.Embed :=
  let res := vid.Finalize.1.1
  let errs := vid.Finalize.1.2
  (e.addAllRawErrors errs).SetRawVideo res

/-- Modelled from the spec: the `Image` sub-builder (declared in the
repository's image file, not part of the provided source). -/
structure Image where
  EmbedImage : Disgord.EmbedImage
  Errors : Option (List Err)
  deriving DecidableEq, Repr

/-- Modelled from the spec: `Image.Finalize` returns the raw fragment and
the accumulated errors, then clears the builder's error list. -/
def Image.Finalize (i : Disgobed.Image) :
    (Disgord.EmbedImage × Option (List Err)) × Disgobed.Image :=
  ((i.EmbedImage, i.Errors), { i with Errors := none })

/-- `SetRawImage`: unconditional set of the image fragment. -/
def Embed.SetRawImage (e : Disgobed.Embed) (img : Disgord.EmbedImage) :
    Disgobed.Embed :=
  { e with Embed := { e.Embed with Image := some img } }

/-- `SetImage`: finalizes the image builder, absorbs its errors, then
sets the raw result via `SetRawImage`. -/
def Embed.SetImage (e : Disgobed.Embed) (img : Disgobed.Image) :
    Disgobed.Embed :=
  let res := img.Finalize.1.1
  let errs := img.Finalize.1.2
  (e.addAllRawErrors errs).SetRawImage res

/-! ## Basic lemmas about the error accumulator -/

/-- `addError` appends one error to the (possibly still nil) list. -/
theorem addError_eq (e : Disgobed.Embed) (err : Err) :
    e.addError err = { e with Errors := some (errsOf e.Errors ++ [err]) } := by
  cases h : e.Errors <;> simp [Embed.addError, errsOf, h]

/-- `addRawError` appends one error to the (possibly still nil) list. -/
theorem addRawError_eq (e : Disgobed.Embed) (err : Err) :
    e.addRawError err = { e with Errors := some (errsOf e.Errors ++ [err]) } := by
  cases h : e.Errors <;> simp [Embed.addRawError, errsOf, h]

/-- `addError` seen through `errsOf`: one error appended. -/
theorem errsOf_addError (e : Disgobed.Embed) (err : Err) :
    errsOf (e.addError err).Errors = errsOf e.Errors ++ [err] := by
  rw [addError_eq]
  rfl

/-- Folding `addRawError` over a list keeps the raw embed and appends the
whole list; the nil pointer survives exactly when the list is empty. -/
theorem foldl_addRawError (l : List Err) (e : Disgobed.Embed) :
    (l.foldl Embed.addRawError e).Embed = e.Embed ∧
    (l.foldl Embed.addRawError e).Errors =
      (if l.isEmpty then e.Errors else some (errsOf e.Errors ++ l)) := by
  induction l generalizing e with
  | nil => simp
  | cons a l ih =>
    obtain ⟨ih1, ih2⟩ := ih (e.addRawError a)
    refine ⟨by simpa [addRawError_eq] using ih1, ?_⟩
    rw [List.foldl_cons, ih2]
    cases l with
    | nil => simp [addRawError_eq, errsOf]
    | cons b l => simp [addRawError_eq, errsOf]

/-- `addAllRawErrors` never touches the raw embed. -/
theorem addAllRawErrors_embed (e : Disgobed.Embed) (o : Option (List Err)) :
    (e.addAllRawErrors o).Embed = e.Embed := by
  cases o with
  | none => rfl
  | some l => exact (foldl_addRawError l e).1

/-- `addAllRawErrors` is pure, order-preserving append of the absorbed
list onto the stored list, with no deduplication. -/
theorem addAllRawErrors_errsOf (e : Disgobed.Embed) (o : Option (List Err)) :
    errsOf (e.addAllRawErrors o).Errors = errsOf e.Errors ++ errsOf o := by
  cases o with
  | none => simp [Embed.addAllRawErrors, errsOf]
  | some l =>
    have h := (foldl_addRawError l e).2
    show errsOf (l.foldl Embed.addRawError e).Errors = _
    rw [h]
    cases l <;> simp [errsOf]

/-- Absorbing a non-empty error slice always allocates and appends. -/
theorem addAllRawErrors_some (e : Disgobed.Embed) (l : List Err) (h : l ≠ []) :
    (e.addAllRawErrors (some l)).Errors = some (errsOf e.Errors ++ l) := by
  have h2 := (foldl_addRawError l e).2
  show (l.foldl Embed.addRawError e).Errors = _
  rw [h2, if_neg (by simpa using h)]

/-! ## Lemmas about the field collection -/

/-- `AddRawField` under the limit: plain append, no error. -/
theorem AddRawField_of_lt (e : Disgobed.Embed) (f : Disgord.EmbedField)
    (h : e.Embed.Fields.length < maxFieldCount) :
    e.AddRawField f =
      { e with Embed := { e.Embed with Fields := e.Embed.Fields ++ [f] } } := by
  simp [Embed.AddRawField, h]

/-- `AddRawField` at or above the limit: the field is dropped and one
limit-reached error naming it is recorded. -/
theorem AddRawField_of_ge (e : Disgobed.Embed) (f : Disgord.EmbedField)
    (h : ¬ e.Embed.Fields.length < maxFieldCount) :
    e.AddRawField f =
      e.addError (.collectionLimitReached f.Name maxFieldCount) := by
  simp [Embed.AddRawField, h]

/-- `AddRawFields` appends raw fields one at a time in input order until
the limit is reached; each field offered past the limit is individually
rejected with its own limit-reached error, in order. -/
theorem AddRawFields_spec (rs : List Disgord.EmbedField) (e : Disgobed.Embed) :
    (e.AddRawFields rs).Embed.Fields =
      e.Embed.Fields ++ rs.take (maxFieldCount - e.Embed.Fields.length) ∧
    (e.AddRawFields rs).Errors =
      (if rs.length ≤ maxFieldCount - e.Embed.Fields.length then e.Errors
       else some (errsOf e.Errors ++
         ((rs.drop (maxFieldCount - e.Embed.Fields.length)).map
           fun f => Err.collectionLimitReached f.Name maxFieldCount))) := by
  induction rs generalizing e with
  | nil => simp [Embed.AddRawFields]
  | cons r rs ih =>
    show ((e.AddRawField r).AddRawFields rs).Embed.Fields = _ ∧
      ((e.AddRawField r).AddRawFields rs).Errors = _
    by_cases h : e.Embed.Fields.length < maxFieldCount
    · rw [AddRawField_of_lt e r h]
      set e2 : Disgobed.Embed :=
        { e with Embed := { e.Embed with Fields := e.Embed.Fields ++ [r] } } with he2
      obtain ⟨ih1, ih2⟩ := ih e2
      have hlen : e2.Embed.Fields.length = e.Embed.Fields.length + 1 := by
        simp [he2]
      have hsub : maxFieldCount - e.Embed.Fields.length =
          (maxFieldCount - e2.Embed.Fields.length) + 1 := by
        rw [hlen]; omega
      constructor
      · rw [ih1, hsub]
        simp [he2, List.take_succ_cons]
      · have herr : e2.Errors = e.Errors := by simp [he2]
        have herr2 : errsOf e2.Errors = errsOf e.Errors := by rw [herr]
        rw [ih2, herr, herr2, hsub]
        simp only [List.length_cons, List.drop_succ_cons,
          Nat.add_le_add_iff_right]
    · rw [AddRawField_of_ge e r h]
      set e2 : Disgobed.Embed :=
        e.addError (.collectionLimitReached r.Name maxFieldCount) with he2
      obtain ⟨ih1, ih2⟩ := ih e2
      have hEmb : e2.Embed = e.Embed := by simp [he2, addError_eq]
      have hzero : maxFieldCount - e.Embed.Fields.length = 0 := by omega
      constructor
      · rw [ih1, hEmb, hzero]
        simp
      · rw [ih2, hEmb, hzero]
        have hE2 : e2.Errors = some (errsOf e.Errors ++
            [Err.collectionLimitReached r.Name maxFieldCount]) := by
          simp [he2, addError_eq]
        have hE2o : errsOf e2.Errors = errsOf e.Errors ++
            [Err.collectionLimitReached r.Name maxFieldCount] := by
          rw [hE2]; simp [errsOf]
        cases rs with
        | nil => simp [hE2]
        | cons b bs => simp [hE2, errsOf, List.append_assoc]

/-- When every offered `Field` builder carries no errors, `AddFields`
coincides with `AddRawFields` on the underlying raw fields. -/
theorem AddFields_of_noErrors (fs : List Field) (e : Disgobed.Embed)
    (h : ∀ f ∈ fs, f.Errors = none) :
    e.AddFields fs = e.AddRawFields (fs.map Field.EmbedField) := by
  induction fs generalizing e with
  | nil => rfl
  | cons f fs ih =>
    have hf : f.Errors = none := h f (by simp)
    show (e.AddField f).AddFields fs = _
    have : e.AddField f = e.AddRawField f.EmbedField := by
      simp [Embed.AddField, Field.Finalize, hf, Embed.addAllRawErrors]
    rw [this, List.map_cons]
    exact ih (e.AddRawField f.EmbedField) fun g hg => h g (by simp [hg])

/-- Absorbing a slice that holds no errors (a nil pointer or an empty
slice) is the identity. -/
theorem addAllRawErrors_nil (e : Disgobed.Embed) (o : Option (List Err))
    (h : errsOf o = []) : e.addAllRawErrors o = e := by
  cases o with
  | none => rfl
  | some l =>
    have hl : l = [] := h
    rw [hl]
    rfl

/-- `AddRawField` only ever appends to the error list. -/
theorem errsOf_AddRawField_extends (e : Disgobed.Embed)
    (rf : Disgord.EmbedField) :
    ∃ l, errsOf (e.AddRawField rf).Errors = errsOf e.Errors ++ l := by
  by_cases h : e.Embed.Fields.length < maxFieldCount
  · exact ⟨[], by rw [AddRawField_of_lt e rf h]; simp⟩
  · exact ⟨[.collectionLimitReached rf.Name maxFieldCount],
      by rw [AddRawField_of_ge e rf h]; exact errsOf_addError e _⟩

/-- `AddField` only ever appends to the error list. -/
theorem errsOf_AddField_extends (e : Disgobed.Embed) (fb : Field) :
    ∃ l, errsOf (e.AddField fb).Errors = errsOf e.Errors ++ l := by
  have hstep : e.AddField fb =
      (e.addAllRawErrors fb.Errors).AddRawField fb.EmbedField := by
    simp [Embed.AddField, Field.Finalize]
  rw [hstep]
  obtain ⟨l, hl⟩ :=
    errsOf_AddRawField_extends (e.addAllRawErrors fb.Errors) fb.EmbedField
  exact ⟨errsOf fb.Errors ++ l,
    by rw [hl, addAllRawErrors_errsOf, List.append_assoc]⟩

/-- `AddRawFields` only ever appends to the error list. -/
theorem errsOf_AddRawFields_extends (rs : List Disgord.EmbedField)
    (e : Disgobed.Embed) :
    ∃ l, errsOf (e.AddRawFields rs).Errors = errsOf e.Errors ++ l := by
  induction rs generalizing e with
  | nil => exact ⟨[], by simp [Embed.AddRawFields]⟩
  | cons r rs ih =>
    obtain ⟨l1, h1⟩ := errsOf_AddRawField_extends e r
    obtain ⟨l2, h2⟩ := ih (e.AddRawField r)
    exact ⟨l1 ++ l2, by
      show errsOf ((e.AddRawField r).AddRawFields rs).Errors = _
      rw [h2, h1, List.append_assoc]⟩

/-- `AddFields` only ever appends to the error list. -/
theorem errsOf_AddFields_extends (fs : List Field) (e : Disgobed.Embed) :
    ∃ l, errsOf (e.AddFields fs).Errors = errsOf e.Errors ++ l := by
  induction fs generalizing e with
  | nil => exact ⟨[], by simp [Embed.AddFields]⟩
  | cons fb fs ih =>
    obtain ⟨l1, h1⟩ := errsOf_AddField_extends e fb
    obtain ⟨l2, h2⟩ := ih (e.AddField fb)
    exact ⟨l1 ++ l2, by
      show errsOf ((e.AddField fb).AddFields fs).Errors = _
      rw [h2, h1, List.append_assoc]⟩

/-! ## Setter-call sequences

To reason about arbitrary chains of setter calls, the pure setters are
reified as an operation type; `applyOp` dispatches back to the functions
above, and `opFails` mirrors each setter's validation condition. -/

/-- One setter call on the `Embed` builder, with its argument: one
constructor per exported setter of `embed.go` (the ambient clock of
`SetCurrentTimestamp` appears as an explicit instant). -/
inductive Op where
  | setTitle (s : String)
  | setDescription (s : String)
  | setURL (s : String)
  | setColor (c : Int)
  | setCurrentTimestamp (now : Int)
  | setCustomTimestamp (t : Int)
  | inlineAll
  | outlineAll
  | addFields (fs : List Field)
  | addRawFields (rs : List Disgord.EmbedField)
  | addField (fb : Field)
  | addRawField (f : Disgord.EmbedField)
  | setAuthor (a : Author)
  | setRawAuthor (a : Disgord.EmbedAuthor)
  | setThumbnail (t : Thumbnail)
  | setRawThumbnail (t : Disgord.EmbedThumbnail)
  | setProvider (p : Provider)
  | setRawProvider (p : Disgord.EmbedProvider)
  | setFooter (f : Footer)
  | setRawFooter (f : Disgord.EmbedFooter)
  | setVideo (v : Video)
  | setRawVideo (v : Disgord.EmbedVideo)
  | setImage (i : Image)
  | setRawImage (i : Disgord.EmbedImage)
  | setType (t : String)
  deriving DecidableEq, Repr

/-- Apply one reified setter call. -/
def applyOp (e : Disgobed.Embed) : Op → Disgobed.Embed
  | .setTitle s => e.SetTitle s
  | .setDescription s => e.SetDescription s
  | .setURL s => e.SetURL s
  | .setColor c => e.SetColor c
  | .setCurrentTimestamp now => e.SetCurrentTimestamp now
  | .setCustomTimestamp t => e.SetCustomTimestamp t
  | .inlineAll => e.InlineAllFields
  | .outlineAll => e.OutlineAllFields
  | .addFields fs => e.AddFields fs
  | .addRawFields rs => e.AddRawFields rs
  | .addField fb => e.AddField fb
  | .addRawField f => e.AddRawField f
  | .setAuthor a => e.SetAuthor a
  | .setRawAuthor a => e.SetRawAuthor a
  | .setThumbnail t => e.SetThumbnail t
  | .setRawThumbnail t => e.SetRawThumbnail t
  | .setProvider p => e.SetProvider p
  | .setRawProvider p => e.SetRawProvider p
  | .setFooter f => e.SetFooter f
  | .setRawFooter f => e.SetRawFooter f
  | .setVideo v => e.SetVideo v
  | .setRawVideo v => e.SetRawVideo v
  | .setImage i => e.SetImage i
  | .setRawImage i => e.SetRawImage i
  | .setType t => e.SetType t

/-- An `AddRawField` call fails exactly when the field list is full. -/
def addRawFieldFails (e : Disgobed.Embed) : Bool :=
  !decide (e.Embed.Fields.length < maxFieldCount)

/-- Whether some call of the `AddRawFields` loop fails. -/
def addRawFieldsFails : Disgobed.Embed → List Disgord.EmbedField → Bool
  | _, [] => false
  | e, r :: rs => addRawFieldFails e || addRawFieldsFails (e.AddRawField r) rs

/-- An `AddField` call fails when the absorbed field builder carries
errors or the field list is full. -/
def addFieldFails (e : Disgobed.Embed) (fb : Field) : Bool :=
  !decide (errsOf fb.Errors = []) || addRawFieldFails e

/-- Whether some call of the `AddFields` loop fails. -/
def addFieldsFails : Disgobed.Embed → List Field → Bool
  | _, [] => false
  | e, fb :: fs => addFieldFails e fb || addFieldsFails (e.AddField fb) fs

/-- Whether the setter call fails validation in state `e`: the exact
negation of the guard in the corresponding setter, and for the absorbing
setters whether the sub-builder hands over any errors. -/
def opFails (e : Disgobed.Embed) : Op → Bool
  | .setTitle s => !decide (goLen s ≤ lowerCharLimit)
  | .setDescription s => !decide (goLen s ≤ upperCharLimit)
  | .setURL _ => false
  | .setColor c => !decide (c ≥ 0 ∧ c < maxColorValue)
  | .setCurrentTimestamp _ => false
  | .setCustomTimestamp _ => false
  | .inlineAll => false
  | .outlineAll => false
  | .addFields fs => addFieldsFails e fs
  | .addRawFields rs => addRawFieldsFails e rs
  | .addField fb => addFieldFails e fb
  | .addRawField _ => addRawFieldFails e
  | .setAuthor a => !decide (errsOf a.Errors = [])
  | .setRawAuthor _ => false
  | .setThumbnail t => !decide (errsOf t.Errors = [])
  | .setRawThumbnail _ => false
  | .setProvider p => !decide (errsOf p.Errors = [])
  | .setRawProvider _ => false
  | .setFooter f => !decide (errsOf f.Errors = [])
  | .setRawFooter _ => false
  | .setVideo v => !decide (errsOf v.Errors = [])
  | .setRawVideo _ => false
  | .setImage i => !decide (errsOf i.Errors = [])
  | .setRawImage _ => false
  | .setType t => !checkTypeValid t

/-- Every setter call along the sequence passes validation. -/
def allOk (e : Disgobed.Embed) : List Op → Bool
  | [] => true
  | op :: ops => !opFails e op && allOk (applyOp e op) ops

/-- Run a sequence of setter calls left to right. -/
def applyOps (e : Disgobed.Embed) (ops : List Op) : Disgobed.Embed :=
  ops.foldl applyOp e

/-- A passing `AddRawField` leaves the error list untouched. -/
theorem AddRawField_ok_errors (e : Disgobed.Embed) (f : Disgord.EmbedField)
    (h : addRawFieldFails e = false) : (e.AddRawField f).Errors = e.Errors := by
  simp [addRawFieldFails] at h
  rw [AddRawField_of_lt e f h]

/-- A passing `AddField` leaves the error list untouched. -/
theorem AddField_ok_errors (e : Disgobed.Embed) (fb : Field)
    (h : addFieldFails e fb = false) : (e.AddField fb).Errors = e.Errors := by
  simp [addFieldFails, addRawFieldFails] at h
  have hstep : e.AddField fb =
      (e.addAllRawErrors fb.Errors).AddRawField fb.EmbedField := by
    simp [Embed.AddField, Field.Finalize]
  rw [hstep, addAllRawErrors_nil e fb.Errors h.1, AddRawField_of_lt e _ h.2]

/-- A passing `AddRawFields` loop leaves the error list untouched. -/
theorem AddRawFields_ok_errors (rs : List Disgord.EmbedField) :
    ∀ (e : Disgobed.Embed), addRawFieldsFails e rs = false →
      (e.AddRawFields rs).Errors = e.Errors := by
  induction rs with
  | nil => intro e _; rfl
  | cons r rs ih =>
    intro e h
    rw [show addRawFieldsFails e (r :: rs) =
      (addRawFieldFails e || addRawFieldsFails (e.AddRawField r) rs)
      from rfl, Bool.or_eq_false_iff] at h
    show ((e.AddRawField r).AddRawFields rs).Errors = e.Errors
    rw [ih (e.AddRawField r) h.2, AddRawField_ok_errors e r h.1]

/-- A passing `AddFields` loop leaves the error list untouched. -/
theorem AddFields_ok_errors (fs : List Field) :
    ∀ (e : Disgobed.Embed), addFieldsFails e fs = false →
      (e.AddFields fs).Errors = e.Errors := by
  induction fs with
  | nil => intro e _; rfl
  | cons fb fs ih =>
    intro e h
    rw [show addFieldsFails e (fb :: fs) =
      (addFieldFails e fb || addFieldsFails (e.AddField fb) fs)
      from rfl, Bool.or_eq_false_iff] at h
    show ((e.AddField fb).AddFields fs).Errors = e.Errors
    rw [ih (e.AddField fb) h.2, AddField_ok_errors e fb h.1]

/-- A setter call that passes validation leaves the error list untouched
(in particular a nil list stays nil). -/
theorem applyOp_ok_errors (e : Disgobed.Embed) (op : Op)
    (h : opFails e op = false) : (applyOp e op).Errors = e.Errors := by
  cases op with
  | setTitle s =>
    simp [opFails] at h
    simp [applyOp, Embed.SetTitle, h]
  | setDescription s =>
    simp [opFails] at h
    simp [applyOp, Embed.SetDescription, h]
  | setURL s => simp [applyOp, Embed.SetURL]
  | setColor c =>
    simp [opFails] at h
    simp [applyOp, Embed.SetColor, h]
  | setCurrentTimestamp now =>
    simp [applyOp, Embed.SetCurrentTimestamp, Embed.setRawTimestamp]
  | setCustomTimestamp t =>
    simp [applyOp, Embed.SetCustomTimestamp, Embed.setRawTimestamp]
  | inlineAll => simp [applyOp, Embed.InlineAllFields]
  | outlineAll => simp [applyOp, Embed.OutlineAllFields]
  | addFields fs => exact AddFields_ok_errors fs e h
  | addRawFields rs => exact AddRawFields_ok_errors rs e h
  | addField fb => exact AddField_ok_errors e fb h
  | addRawField f => exact AddRawField_ok_errors e f h
  | setAuthor a =>
    simp [opFails] at h
    have h0 := addAllRawErrors_nil e a.Errors h
    simp [applyOp, Embed.SetAuthor, Author.Finalize, h0, Embed.SetRawAuthor]
  | setRawAuthor a => simp [applyOp, Embed.SetRawAuthor]
  | setThumbnail t =>
    simp [opFails] at h
    have h0 := addAllRawErrors_nil e t.Errors h
    simp [applyOp, Embed.SetThumbnail, Thumbnail.Finalize, h0,
      Embed.SetRawThumbnail]
  | setRawThumbnail t => simp [applyOp, Embed.SetRawThumbnail]
  | setProvider p =>
    simp [opFails] at h
    have h0 := addAllRawErrors_nil e p.Errors h
    simp [applyOp, Embed.SetProvider, Provider.Finalize, h0,
      Embed.SetRawProvider]
  | setRawProvider p => simp [applyOp, Embed.SetRawProvider]
  | setFooter f =>
    simp [opFails] at h
    have h0 := addAllRawErrors_nil e f.Errors h
    simp [applyOp, Embed.SetFooter, Footer.Finalize, h0, Embed.SetRawFooter]
  | setRawFooter f => simp [applyOp, Embed.SetRawFooter]
  | setVideo v =>
    simp [opFails] at h
    have h0 := addAllRawErrors_nil e v.Errors h
    simp [applyOp, Embed.SetVideo, Video.Finalize, h0, Embed.SetRawVideo]
  | setRawVideo v => simp [applyOp, Embed.SetRawVideo]
  | setImage i =>
    simp [opFails] at h
    have h0 := addAllRawErrors_nil e i.Errors h
    simp [applyOp, Embed.SetImage, Image.Finalize, h0, Embed.SetRawImage]
  | setRawImage i => simp [applyOp, Embed.SetRawImage]
  | setType t =>
    simp [opFails] at h
    simp [applyOp, Embed.SetType, h]

/-! ## The claims -/

/-- A 257-byte string, one byte past the title limit. -/
def longTitle : String := "aaaaaaaaaaaaaaaaaaaaaaaaaaaaaaaaaaaaaaaaaaaaaaaaaaaaaaaaaaaaaaaaaaaaaaaaaaaaaaaaaaaaaaaaaaaaaaaaaaaaaaaaaaaaaaaaaaaaaaaaaaaaaaaaaaaaaaaaaaaaaaaaaaaaaaaaaaaaaaaaaaaaaaaaaaaaaaaaaaaaaaaaaaaaaaaaaaaaaaaaaaaaaaaaaaaaaaaaaaaaaaaaaaaaaaaaaaaaaaaaaaaaaaaaaaaaaaaaa"

/-- C1: for every string `s`, if `len(s) ≤ 256` then `SetTitle s` sets the
title to `s` and appends no error; if `len(s) > 256` it leaves the title
unchanged and appends exactly one limit-exceeded error. -/
theorem claim_C1_SetTitle (e : Disgobed.Embed) (s : String) :
    (goLen s ≤ 256 →
      (e.SetTitle s).Embed.Title = s ∧ (e.SetTitle s).Errors = e.Errors) ∧
    (256 < goLen s →
      (e.SetTitle s).Embed.Title = e.Embed.Title ∧
      (e.SetTitle s).Errors =
        some (errsOf e.Errors ++
          [.limitExceeded "embed title" 256 (goLen s) s])) := by
  constructor
  · intro h
    have h2 : goLen s ≤ lowerCharLimit := h
    unfold Embed.SetTitle
    rw [if_pos h2]
    exact ⟨rfl, rfl⟩
  · intro h
    have h2 : ¬ goLen s ≤ lowerCharLimit := by
      unfold lowerCharLimit; omega
    unfold Embed.SetTitle
    rw [if_neg h2, addError_eq]
    exact ⟨rfl, rfl⟩

set_option maxRecDepth 4000 in
/-- C1 witness: both branches of `claim_C1_SetTitle` at concrete inputs. -/
theorem claim_C1_SetTitle_witness :
    ((NewEmbed.SetTitle "ok").Embed.Title = "ok" ∧
      (NewEmbed.SetTitle "ok").Errors = NewEmbed.Errors) ∧
    ((NewEmbed.SetTitle longTitle).Embed.Title = NewEmbed.Embed.Title ∧
      (NewEmbed.SetTitle longTitle).Errors =
        some (errsOf NewEmbed.Errors ++
          [.limitExceeded "embed title" 256 (goLen longTitle) longTitle])) :=
  ⟨(claim_C1_SetTitle NewEmbed "ok").1 (by decide),
   (claim_C1_SetTitle NewEmbed longTitle).2 (by decide)⟩

/-- C2: for every integer `c`, `SetColor c` sets the color iff
`0 ≤ c < 16777216`; otherwise it leaves the color unchanged and appends
exactly one value-out-of-range error. -/
theorem claim_C2_SetColor (e : Disgobed.Embed) (c : Int) :
    (0 ≤ c ∧ c < 16777216 →
      (e.SetColor c).Embed.Color = c ∧ (e.SetColor c).Errors = e.Errors) ∧
    (¬ (0 ≤ c ∧ c < 16777216) →
      (e.SetColor c).Embed.Color = e.Embed.Color ∧
      (e.SetColor c).Errors =
        some (errsOf e.Errors ++
          [.valueOutOfRange "embed color" c 0 16777216])) := by
  constructor
  · intro h
    have h2 : c ≥ 0 ∧ c < maxColorValue := ⟨h.1, h.2⟩
    unfold Embed.SetColor
    rw [if_pos h2]
    exact ⟨rfl, rfl⟩
  · intro h
    have h2 : ¬ (c ≥ 0 ∧ c < maxColorValue) := h
    unfold Embed.SetColor
    rw [if_neg h2, addError_eq]
    exact ⟨rfl, rfl⟩

/-- C2 witness: both branches of `claim_C2_SetColor` at concrete inputs. -/
theorem claim_C2_SetColor_witness :
    ((NewEmbed.SetColor 5).Embed.Color = 5 ∧
      (NewEmbed.SetColor 5).Errors = NewEmbed.Errors) ∧
    ((NewEmbed.SetColor (-1)).Embed.Color = NewEmbed.Embed.Color ∧
      (NewEmbed.SetColor (-1)).Errors =
        some (errsOf NewEmbed.Errors ++
          [.valueOutOfRange "embed color" (-1) 0 16777216])) :=
  ⟨(claim_C2_SetColor NewEmbed 5).1 (by decide),
   (claim_C2_SetColor NewEmbed (-1)).2 (by decide)⟩

/-- C4: finalizing twice in a row: the second call returns no errors, both
calls return the same raw embed, and that raw embed (with all its fields)
is exactly the builder's wrapped embed, untouched by either call. -/
theorem claim_C4_Finalize_twice (e : Disgobed.Embed) :
    e.Finalize.2.Finalize.1.2 = none ∧
    e.Finalize.2.Finalize.1.1 = e.Finalize.1.1 ∧
    e.Finalize.1.1 = e.Embed ∧
    e.Finalize.2.Finalize.2.Embed = e.Embed := by
  simp [Embed.Finalize]

/-- C4 witness: `claim_C4_Finalize_twice` at a concrete builder. -/
theorem claim_C4_Finalize_twice_witness :
    (NewEmbed.SetColor (-1)).Finalize.2.Finalize.1.2 = none ∧
    (NewEmbed.SetColor (-1)).Finalize.2.Finalize.1.1 =
      (NewEmbed.SetColor (-1)).Finalize.1.1 ∧
    (NewEmbed.SetColor (-1)).Finalize.1.1 = (NewEmbed.SetColor (-1)).Embed ∧
    (NewEmbed.SetColor (-1)).Finalize.2.Finalize.2.Embed =
      (NewEmbed.SetColor (-1)).Embed :=
  claim_C4_Finalize_twice (NewEmbed.SetColor (-1))

/-- C6: after `InlineAllFields` then `OutlineAllFields`, every attached
field's inline flag is false, whatever the flags were at attachment. -/
theorem claim_C6_inline_outline (e : Disgobed.Embed) (f : Disgord.EmbedField)
    (hf : f ∈ (e.InlineAllFields.OutlineAllFields).Embed.Fields) :
    f.Inline = false := by
  simp [Embed.InlineAllFields, Embed.OutlineAllFields] at hf
  obtain ⟨a, _, h⟩ := hf
  rw [← h]

/-- C6 witness: a field attached with the inline flag set comes out with
the flag cleared. -/
theorem claim_C6_inline_outline_witness :
    (⟨"n", "v", false⟩ : Disgord.EmbedField).Inline = false :=
  claim_C6_inline_outline (NewEmbed.AddRawField ⟨"n", "v", true⟩)
    ⟨"n", "v", false⟩ (by decide)

/-- C7: `SetType` sets the type and appends no error exactly on the fixed
enumeration of valid embed types (which contains `"rich"`); on any other
value (such as `"bogus"`) it leaves the type unchanged and appends exactly
one invalid-enum-value error. -/
theorem claim_C7_SetType (e : Disgobed.Embed) (t : String) :
    (checkTypeValid t = true →
      (e.SetType t).Embed.«Type» = t ∧ (e.SetType t).Errors = e.Errors) ∧
    (checkTypeValid t = false →
      (e.SetType t).Embed.«Type» = e.Embed.«Type» ∧
      (e.SetType t).Errors =
        some (errsOf e.Errors ++ [.invalidEnumValue t])) ∧
    checkTypeValid "rich" = true ∧ checkTypeValid "bogus" = false := by
  refine ⟨?_, ?_, by decide, by decide⟩
  · intro h
    simp [Embed.SetType, h]
  · intro h
    simp [Embed.SetType, h, addError_eq]

/-- C7 witness: both branches of `claim_C7_SetType` at `"rich"` and
`"bogus"`. -/
theorem claim_C7_SetType_witness :
    ((NewEmbed.SetType "rich").Embed.«Type» = "rich" ∧
      (NewEmbed.SetType "rich").Errors = NewEmbed.Errors) ∧
    ((NewEmbed.SetType "bogus").Embed.«Type» = NewEmbed.Embed.«Type» ∧
      (NewEmbed.SetType "bogus").Errors =
        some (errsOf NewEmbed.Errors ++ [.invalidEnumValue "bogus"])) :=
  ⟨(claim_C7_SetType NewEmbed "rich").1 (by decide),
   (claim_C7_SetType NewEmbed "bogus").2.1 (by decide)⟩

/-- C3: starting from the empty embed, `AddFields` over error-free field
builders keeps the first 25 offered fields in call order; every field
offered past 25 is individually rejected with its own limit-reached error
(none at all when at most 25 are offered); in particular 26 fields leave
exactly 25 fields and exactly 1 error. -/
theorem claim_C3_AddFields_limit (fs : List Field)
    (h : ∀ f ∈ fs, f.Errors = none) :
    (NewEmbed.AddFields fs).Embed.Fields = (fs.map Field.EmbedField).take 25 ∧
    (NewEmbed.AddFields fs).Errors =
      (if fs.length ≤ 25 then none
       else some (((fs.map Field.EmbedField).drop 25).map
         fun f => Err.collectionLimitReached f.Name 25)) ∧
    (fs.length = 26 →
      (NewEmbed.AddFields fs).Embed.Fields.length = 25 ∧
      (errsOf (NewEmbed.AddFields fs).Errors).length = 1) := by
  rw [AddFields_of_noErrors fs NewEmbed h]
  obtain ⟨h1, h2⟩ := AddRawFields_spec (fs.map Field.EmbedField) NewEmbed
  have e0 : maxFieldCount - NewEmbed.Embed.Fields.length = 25 := rfl
  have e1 : NewEmbed.Embed.Fields = ([] : List Disgord.EmbedField) := rfl
  have e2 : NewEmbed.Errors = none := rfl
  rw [e0] at h1 h2
  rw [e1] at h1
  rw [e2] at h2
  have hF : (NewEmbed.AddRawFields (fs.map Field.EmbedField)).Embed.Fields =
      (fs.map Field.EmbedField).take 25 := by rw [h1]; simp
  have hE : (NewEmbed.AddRawFields (fs.map Field.EmbedField)).Errors =
      (if fs.length ≤ 25 then none
       else some (((fs.map Field.EmbedField).drop 25).map
         fun f => Err.collectionLimitReached f.Name 25)) := by
    rw [h2]
    simp [errsOf, maxFieldCount]
  refine ⟨hF, hE, ?_⟩
  intro h26
  constructor
  · rw [hF]
    simp [h26]
  · rw [hE, if_neg (by omega)]
    simp [errsOf, h26]

/-- A list of 26 error-free field builders. -/
def sample26 : List Field := List.replicate 26 ⟨⟨"n", "v", false⟩, none⟩

set_option maxRecDepth 8000 in
/-- C3 witness: `claim_C3_AddFields_limit` at 26 concrete fields. -/
theorem claim_C3_AddFields_limit_witness :
    (NewEmbed.AddFields sample26).Embed.Fields.length = 25 ∧
    (errsOf (NewEmbed.AddFields sample26).Errors).length = 1 :=
  (claim_C3_AddFields_limit sample26 (by decide)).2.2 (by decide)

/-- C5: attaching via `SetFooter` a footer builder that carries exactly one
error to a builder with no errors makes the parent finalize with exactly
that one error, while the raw footer is installed; and in general error
absorption is pure, order-preserving append with no deduplication. -/
theorem claim_C5_SetFooter_propagation (e : Disgobed.Embed) (f : Footer)
    (err : Err) (he : e.Errors = none) (hf : f.Errors = some [err]) :
    (e.SetFooter f).Finalize.1.2 = some [err] ∧
    (e.SetFooter f).Embed.Footer = some f.EmbedFooter ∧
    (∀ (e2 : Disgobed.Embed) (l : List Err),
      errsOf (e2.addAllRawErrors (some l)).Errors = errsOf e2.Errors ++ l) := by
  have hstep : e.SetFooter f =
      (e.addAllRawErrors (some [err])).SetRawFooter f.EmbedFooter := by
    simp [Embed.SetFooter, Footer.Finalize, hf]
  have habs : (e.addAllRawErrors (some [err])).Errors = some [err] := by
    rw [addAllRawErrors_some e [err] (by simp), he]
    simp [errsOf]
  refine ⟨?_, ?_, ?_⟩
  · rw [hstep]
    simp [Embed.SetRawFooter, Embed.Finalize, habs]
  · rw [hstep]
    simp [Embed.SetRawFooter]
  · intro e2 l
    simpa [errsOf] using addAllRawErrors_errsOf e2 (some l)

/-- C5 witness: `claim_C5_SetFooter_propagation` at a concrete footer
builder carrying one error. -/
theorem claim_C5_SetFooter_propagation_witness :
    (NewEmbed.SetFooter ⟨⟨"t", ""⟩, some [.invalidEnumValue "x"]⟩).Finalize.1.2
      = some [.invalidEnumValue "x"] ∧
    (NewEmbed.SetFooter ⟨⟨"t", ""⟩,
      some [.invalidEnumValue "x"]⟩).Embed.Footer = some ⟨"t", ""⟩ :=
  ⟨(claim_C5_SetFooter_propagation NewEmbed ⟨⟨"t", ""⟩,
      some [.invalidEnumValue "x"]⟩ (.invalidEnumValue "x") rfl rfl).1,
   (claim_C5_SetFooter_propagation NewEmbed ⟨⟨"t", ""⟩,
      some [.invalidEnumValue "x"]⟩ (.invalidEnumValue "x") rfl rfl).2.1⟩

/-- C8: in the state-passing embedding, a Go setter returning its receiver
pointer is a total function from builder state to builder state; this
theorem covers every exported setter of `embed.go` and shows that each
call never fails (it is defined on all inputs) and that a validation
failure is recorded only by appending to the error list: the resulting
list is always the old list extended on the right. -/
theorem claim_C8_setters_chain (e : Disgobed.Embed) (s : String)
    (c now ts : Int) (fs : List Field) (rs : List Disgord.EmbedField)
    (fb : Field) (rf : Disgord.EmbedField)
    (au : Author) (rau : Disgord.EmbedAuthor)
    (th : Thumbnail) (rth : Disgord.EmbedThumbnail)
    (pv : Provider) (rpv : Disgord.EmbedProvider)
    (ft : Footer) (rft : Disgord.EmbedFooter)
    (vd : Video) (rvd : Disgord.EmbedVideo)
    (im : Image) (rim : Disgord.EmbedImage) :
    (∃ l, errsOf (e.SetTitle s).Errors = errsOf e.Errors ++ l) ∧
    (∃ l, errsOf (e.SetDescription s).Errors = errsOf e.Errors ++ l) ∧
    (∃ l, errsOf (e.SetURL s).Errors = errsOf e.Errors ++ l) ∧
    (∃ l, errsOf (e.SetColor c).Errors = errsOf e.Errors ++ l) ∧
    (∃ l, errsOf (e.SetCurrentTimestamp now).Errors = errsOf e.Errors ++ l) ∧
    (∃ l, errsOf (e.SetCustomTimestamp ts).Errors = errsOf e.Errors ++ l) ∧
    (∃ l, errsOf (e.InlineAllFields).Errors = errsOf e.Errors ++ l) ∧
    (∃ l, errsOf (e.OutlineAllFields).Errors = errsOf e.Errors ++ l) ∧
    (∃ l, errsOf (e.AddFields fs).Errors = errsOf e.Errors ++ l) ∧
    (∃ l, errsOf (e.AddRawFields rs).Errors = errsOf e.Errors ++ l) ∧
    (∃ l, errsOf (e.AddField fb).Errors = errsOf e.Errors ++ l) ∧
    (∃ l, errsOf (e.AddRawField rf).Errors = errsOf e.Errors ++ l) ∧
    (∃ l, errsOf (e.SetAuthor au).Errors = errsOf e.Errors ++ l) ∧
    (∃ l, errsOf (e.SetRawAuthor rau).Errors = errsOf e.Errors ++ l) ∧
    (∃ l, errsOf (e.SetThumbnail th).Errors = errsOf e.Errors ++ l) ∧
    (∃ l, errsOf (e.SetRawThumbnail rth).Errors = errsOf e.Errors ++ l) ∧
    (∃ l, errsOf (e.SetProvider pv).Errors = errsOf e.Errors ++ l) ∧
    (∃ l, errsOf (e.SetRawProvider rpv).Errors = errsOf e.Errors ++ l) ∧
    (∃ l, errsOf (e.SetFooter ft).Errors = errsOf e.Errors ++ l) ∧
    (∃ l, errsOf (e.SetRawFooter rft).Errors = errsOf e.Errors ++ l) ∧
    (∃ l, errsOf (e.SetVideo vd).Errors = errsOf e.Errors ++ l) ∧
    (∃ l, errsOf (e.SetRawVideo rvd).Errors = errsOf e.Errors ++ l) ∧
    (∃ l, errsOf (e.SetImage im).Errors = errsOf e.Errors ++ l) ∧
    (∃ l, errsOf (e.SetRawImage rim).Errors = errsOf e.Errors ++ l) ∧
    (∃ l, errsOf (e.SetType s).Errors = errsOf e.Errors ++ l) := by
  refine ⟨?_, ?_, ?_, ?_, ?_, ?_, ?_, ?_, ?_, ?_, ?_, ?_, ?_, ?_, ?_, ?_,
    ?_, ?_, ?_, ?_, ?_, ?_, ?_, ?_, ?_⟩
  · by_cases h : goLen s ≤ lowerCharLimit
    · exact ⟨[], by unfold Embed.SetTitle; rw [if_pos h]; simp⟩
    · exact ⟨[.limitExceeded "embed title" lowerCharLimit (goLen s) s],
        by unfold Embed.SetTitle; rw [if_neg h]; exact errsOf_addError e _⟩
  · by_cases h : goLen s ≤ upperCharLimit
    · exact ⟨[], by unfold Embed.SetDescription; rw [if_pos h]; simp⟩
    · exact ⟨[.limitExceededLong "embed description" upperCharLimit (goLen s)],
        by unfold Embed.SetDescription; rw [if_neg h]; exact errsOf_addError e _⟩
  · exact ⟨[], by simp [Embed.SetURL]⟩
  · by_cases h : c ≥ 0 ∧ c < maxColorValue
    · exact ⟨[], by unfold Embed.SetColor; rw [if_pos h]; simp⟩
    · exact ⟨[.valueOutOfRange "embed color" c 0 maxColorValue],
        by unfold Embed.SetColor; rw [if_neg h]; exact errsOf_addError e _⟩
  · exact ⟨[], by simp [Embed.SetCurrentTimestamp, Embed.setRawTimestamp]⟩
  · exact ⟨[], by simp [Embed.SetCustomTimestamp, Embed.setRawTimestamp]⟩
  · exact ⟨[], by simp [Embed.InlineAllFields]⟩
  · exact ⟨[], by simp [Embed.OutlineAllFields]⟩
  · exact errsOf_AddFields_extends fs e
  · exact errsOf_AddRawFields_extends rs e
  · exact errsOf_AddField_extends e fb
  · exact errsOf_AddRawField_extends e rf
  · have hstep : e.SetAuthor au =
        (e.addAllRawErrors au.Errors).SetRawAuthor au.EmbedAuthor := by
      simp [Embed.SetAuthor, Author.Finalize]
    exact ⟨errsOf au.Errors, by
      rw [hstep]
      simpa [Embed.SetRawAuthor] using addAllRawErrors_errsOf e au.Errors⟩
  · exact ⟨[], by simp [Embed.SetRawAuthor]⟩
  · have hstep : e.SetThumbnail th =
        (e.addAllRawErrors th.Errors).SetRawThumbnail th.EmbedThumbnail := by
      simp [Embed.SetThumbnail, Thumbnail.Finalize]
    exact ⟨errsOf th.Errors, by
      rw [hstep]
      simpa [Embed.SetRawThumbnail] using addAllRawErrors_errsOf e th.Errors⟩
  · exact ⟨[], by simp [Embed.SetRawThumbnail]⟩
  · cases hp : pv.Errors with
    | none =>
      exact ⟨[], by
        simp [Embed.SetProvider, Provider.Finalize, hp, Embed.SetRawProvider]⟩
    | some l =>
      exact ⟨l, by
        simp only [Embed.SetProvider, Provider.Finalize, hp]
        simpa [Embed.SetRawProvider, errsOf]
          using addAllRawErrors_errsOf e (some l)⟩
  · exact ⟨[], by simp [Embed.SetRawProvider]⟩
  · have hstep : e.SetFooter ft =
        (e.addAllRawErrors ft.Errors).SetRawFooter ft.EmbedFooter := by
      simp [Embed.SetFooter, Footer.Finalize]
    exact ⟨errsOf ft.Errors, by
      rw [hstep]
      simpa [Embed.SetRawFooter] using addAllRawErrors_errsOf e ft.Errors⟩
  · exact ⟨[], by simp [Embed.SetRawFooter]⟩
  · have hstep : e.SetVideo vd =
        (e.addAllRawErrors vd.Errors).SetRawVideo vd.EmbedVideo := by
      simp [Embed.SetVideo, Video.Finalize]
    exact ⟨errsOf vd.Errors, by
      rw [hstep]
      simpa [Embed.SetRawVideo] using addAllRawErrors_errsOf e vd.Errors⟩
  · exact ⟨[], by simp [Embed.SetRawVideo]⟩
  · have hstep : e.SetImage im =
        (e.addAllRawErrors im.Errors).SetRawImage im.EmbedImage := by
      simp [Embed.SetImage, Image.Finalize]
    exact ⟨errsOf im.Errors, by
      rw [hstep]
      simpa [Embed.SetRawImage] using addAllRawErrors_errsOf e im.Errors⟩
  · exact ⟨[], by simp [Embed.SetRawImage]⟩
  · by_cases h : checkTypeValid s
    · exact ⟨[], by unfold Embed.SetType; rw [if_pos h]; simp⟩
    · exact ⟨[.invalidEnumValue s],
        by unfold Embed.SetType; rw [if_neg h]; exact errsOf_addError e _⟩

/-- C8 witness: `claim_C8_setters_chain` at concrete inputs for all 25
setters. -/
theorem claim_C8_setters_chain_witness :
    (∃ l, errsOf (NewEmbed.SetTitle "t").Errors =
      errsOf NewEmbed.Errors ++ l) ∧
    (∃ l, errsOf (NewEmbed.SetDescription "t").Errors =
      errsOf NewEmbed.Errors ++ l) ∧
    (∃ l, errsOf (NewEmbed.SetURL "t").Errors =
      errsOf NewEmbed.Errors ++ l) ∧
    (∃ l, errsOf (NewEmbed.SetColor 7).Errors =
      errsOf NewEmbed.Errors ++ l) ∧
    (∃ l, errsOf (NewEmbed.SetCurrentTimestamp 0).Errors =
      errsOf NewEmbed.Errors ++ l) ∧
    (∃ l, errsOf (NewEmbed.SetCustomTimestamp 1).Errors =
      errsOf NewEmbed.Errors ++ l) ∧
    (∃ l, errsOf (NewEmbed.InlineAllFields).Errors =
      errsOf NewEmbed.Errors ++ l) ∧
    (∃ l, errsOf (NewEmbed.OutlineAllFields).Errors =
      errsOf NewEmbed.Errors ++ l) ∧
    (∃ l, errsOf (NewEmbed.AddFields [⟨⟨"n", "v", false⟩, none⟩]).Errors =
      errsOf NewEmbed.Errors ++ l) ∧
    (∃ l, errsOf (NewEmbed.AddRawFields [⟨"m", "w", true⟩]).Errors =
      errsOf NewEmbed.Errors ++ l) ∧
    (∃ l, errsOf (NewEmbed.AddField ⟨⟨"n", "v", false⟩, none⟩).Errors =
      errsOf NewEmbed.Errors ++ l) ∧
    (∃ l, errsOf (NewEmbed.AddRawField ⟨"m", "w", true⟩).Errors =
      errsOf NewEmbed.Errors ++ l) ∧
    (∃ l, errsOf (NewEmbed.SetAuthor ⟨⟨"a", "", ""⟩, none⟩).Errors =
      errsOf NewEmbed.Errors ++ l) ∧
    (∃ l, errsOf (NewEmbed.SetRawAuthor ⟨"a", "", ""⟩).Errors =
      errsOf NewEmbed.Errors ++ l) ∧
    (∃ l, errsOf (NewEmbed.SetThumbnail ⟨⟨"u"⟩, none⟩).Errors =
      errsOf NewEmbed.Errors ++ l) ∧
    (∃ l, errsOf (NewEmbed.SetRawThumbnail ⟨"u"⟩).Errors =
      errsOf NewEmbed.Errors ++ l) ∧
    (∃ l, errsOf (NewEmbed.SetProvider ⟨⟨"p", ""⟩, none⟩).Errors =
      errsOf NewEmbed.Errors ++ l) ∧
    (∃ l, errsOf (NewEmbed.SetRawProvider ⟨"p", ""⟩).Errors =
      errsOf NewEmbed.Errors ++ l) ∧
    (∃ l, errsOf (NewEmbed.SetFooter ⟨⟨"f", ""⟩, some [.invalidEnumValue "x"]⟩).Errors =
      errsOf NewEmbed.Errors ++ l) ∧
    (∃ l, errsOf (NewEmbed.SetRawFooter ⟨"f", ""⟩).Errors =
      errsOf NewEmbed.Errors ++ l) ∧
    (∃ l, errsOf (NewEmbed.SetVideo ⟨⟨"v"⟩, none⟩).Errors =
      errsOf NewEmbed.Errors ++ l) ∧
    (∃ l, errsOf (NewEmbed.SetRawVideo ⟨"v"⟩).Errors =
      errsOf NewEmbed.Errors ++ l) ∧
    (∃ l, errsOf (NewEmbed.SetImage ⟨⟨"i"⟩, none⟩).Errors =
      errsOf NewEmbed.Errors ++ l) ∧
    (∃ l, errsOf (NewEmbed.SetRawImage ⟨"i"⟩).Errors =
      errsOf NewEmbed.Errors ++ l) ∧
    (∃ l, errsOf (NewEmbed.SetType "t").Errors =
      errsOf NewEmbed.Errors ++ l) :=
  claim_C8_setters_chain NewEmbed "t" 7 0 1
    [⟨⟨"n", "v", false⟩, none⟩] [⟨"m", "w", true⟩]
    ⟨⟨"n", "v", false⟩, none⟩ ⟨"m", "w", true⟩
    ⟨⟨"a", "", ""⟩, none⟩ ⟨"a", "", ""⟩
    ⟨⟨"u"⟩, none⟩ ⟨"u"⟩
    ⟨⟨"p", ""⟩, none⟩ ⟨"p", ""⟩
    ⟨⟨"f", ""⟩, some [.invalidEnumValue "x"]⟩ ⟨"f", ""⟩
    ⟨⟨"v"⟩, none⟩ ⟨"v"⟩
    ⟨⟨"i"⟩, none⟩ ⟨"i"⟩

/-- C9: the error list stays nil (not an empty allocated list) from
creation through any sequence of setter calls — drawn from all 25
exported setters — that all pass validation; the first failure allocates
the list with exactly that error, and later failures append, on both the
`addError` formatting path and the `addRawError` absorption path. -/
theorem claim_C9_lazy_error_list :
    (∀ (ops : List Op) (e : Disgobed.Embed), e.Errors = none →
      allOk e ops = true → (applyOps e ops).Errors = none) ∧
    (∀ (e : Disgobed.Embed) (err : Err), e.Errors = none →
      (e.addError err).Errors = some [err]) ∧
    (∀ (e : Disgobed.Embed) (l : List Err) (err : Err), e.Errors = some l →
      (e.addError err).Errors = some (l ++ [err])) ∧
    (∀ (e : Disgobed.Embed) (err : Err), e.Errors = none →
      (e.addRawError err).Errors = some [err]) ∧
    (∀ (e : Disgobed.Embed) (l : List Err) (err : Err), e.Errors = some l →
      (e.addRawError err).Errors = some (l ++ [err])) := by
  refine ⟨?_, ?_, ?_, ?_, ?_⟩
  · intro ops
    induction ops with
    | nil => intro e he _; exact he
    | cons op ops ih =>
      intro e he hok
      rw [allOk, Bool.and_eq_true, Bool.not_eq_true'] at hok
      have h1 : (applyOp e op).Errors = e.Errors := applyOp_ok_errors e op hok.1
      exact ih (applyOp e op) (h1.trans he) hok.2
  · intro e err he
    rw [addError_eq, he]
    rfl
  · intro e l err he
    rw [addError_eq, he]
    rfl
  · intro e err he
    rw [addRawError_eq, he]
    rfl
  · intro e l err he
    rw [addRawError_eq, he]
    rfl

/-- C9 witness: a failure-free chain through scalar setters, field adds
and sub-builder attachments keeps the list nil; the first failure
allocates a singleton and the next failure appends, on both the
`addError` and `addRawError` paths. -/
theorem claim_C9_lazy_error_list_witness :
    (applyOps NewEmbed [.setTitle "t", .setColor 3, .setType "rich",
      .addField ⟨⟨"n", "v", false⟩, none⟩,
      .addFields [⟨⟨"m", "w", false⟩, none⟩],
      .addRawFields [⟨"q", "r", false⟩],
      .setAuthor ⟨⟨"a", "", ""⟩, none⟩,
      .setFooter ⟨⟨"f", ""⟩, none⟩,
      .setProvider ⟨⟨"p", ""⟩, none⟩,
      .setThumbnail ⟨⟨"u"⟩, none⟩,
      .setVideo ⟨⟨"v"⟩, none⟩,
      .setImage ⟨⟨"i"⟩, none⟩,
      .inlineAll]).Errors = none ∧
    (NewEmbed.addError (.invalidEnumValue "b")).Errors =
      some [.invalidEnumValue "b"] ∧
    ((NewEmbed.addError (.invalidEnumValue "b")).addError
        (.invalidEnumValue "c")).Errors =
      some ([.invalidEnumValue "b"] ++ [.invalidEnumValue "c"]) ∧
    (NewEmbed.addRawError (.invalidEnumValue "b")).Errors =
      some [.invalidEnumValue "b"] ∧
    ((NewEmbed.addRawError (.invalidEnumValue "b")).addRawError
        (.invalidEnumValue "c")).Errors =
      some ([.invalidEnumValue "b"] ++ [.invalidEnumValue "c"]) :=
  ⟨claim_C9_lazy_error_list.1 _ NewEmbed rfl (by decide),
   claim_C9_lazy_error_list.2.1 NewEmbed _ rfl,
   claim_C9_lazy_error_list.2.2.1 _ [.invalidEnumValue "b"] _ rfl,
   claim_C9_lazy_error_list.2.2.2.1 NewEmbed _ rfl,
   claim_C9_lazy_error_list.2.2.2.2 _ [.invalidEnumValue "b"] _ rfl⟩

/-- C10: `AddField` on a builder already holding 25 fields still finalizes
the field builder and absorbs its errors before recording the
limit-reached error, so the field's own errors precede the limit error in
the parent's list while the field itself is dropped. -/
theorem claim_C10_AddField_at_limit (e : Disgobed.Embed) (fb : Field)
    (h : e.Embed.Fields.length = 25) :
    (e.AddField fb).Embed.Fields = e.Embed.Fields ∧
    (e.AddField fb).Errors =
      some (errsOf e.Errors ++ errsOf fb.Errors ++
        [.collectionLimitReached fb.EmbedField.Name 25]) := by
  have hstep : e.AddField fb =
      (e.addAllRawErrors fb.Errors).AddRawField fb.EmbedField := by
    simp [Embed.AddField, Field.Finalize]
  have hemb : (e.addAllRawErrors fb.Errors).Embed = e.Embed :=
    addAllRawErrors_embed e fb.Errors
  have hge : ¬ (e.addAllRawErrors fb.Errors).Embed.Fields.length
      < maxFieldCount := by
    rw [hemb, h]
    simp [maxFieldCount]
  rw [hstep, AddRawField_of_ge _ _ hge, addError_eq]
  refine ⟨hemb ▸ rfl, ?_⟩
  show some (errsOf (e.addAllRawErrors fb.Errors).Errors ++ _) = _
  rw [addAllRawErrors_errsOf]
  rfl

/-- A builder already holding 25 fields. -/
def sample25 : Disgobed.Embed :=
  NewEmbed.AddRawFields (List.replicate 25 ⟨"n", "v", false⟩)

/-- A field builder carrying one of its own validation errors. -/
def sampleBadField : Field :=
  ⟨⟨"f", "w", false⟩, some [.invalidEnumValue "k"]⟩

set_option maxRecDepth 8000 in
/-- C10 witness: `claim_C10_AddField_at_limit` at a full builder and an
erroneous field builder. -/
theorem claim_C10_AddField_at_limit_witness :
    (sample25.AddField sampleBadField).Embed.Fields = sample25.Embed.Fields ∧
    (sample25.AddField sampleBadField).Errors =
      some (errsOf sample25.Errors ++ errsOf sampleBadField.Errors ++
        [.collectionLimitReached sampleBadField.EmbedField.Name 25]) :=
  claim_C10_AddField_at_limit sample25 sampleBadField (by decide)

end Disgobed
